import Mathlib

/-!
Verification development for the canopy-research core services.

The Python services under `canopyresearch/services/` are shallowly embedded
as pure Lean functions over an explicit database state.  Conventions used
throughout:

* Vectors (`embedding`, `centroid`, `core_centroid`) are `List ℚ`; numpy
  float arithmetic is modelled exactly over the rationals.
* Timestamps (`timezone.now()`, `created_at`, ...) are `Nat` ticks passed in
  as an explicit `now` argument.
* Django querysets are modelled as Lean lists held in a `DB` record; query
  filters become `List.filter`, `.first()` becomes `List.find?` over the
  state list (rows are appended in creation order, so list order is primary
  key order; where a Django `Meta.ordering` could reorder results this is
  noted at the definition).
* `hashlib.sha256(...).hexdigest()` is an opaque digest function passed as a
  parameter `sha : String → String`; the string it is applied to is computed
  faithfully from the source.
* numpy mean / weighted-sum reductions assume the rectangular arrays numpy
  requires; vectors in one workspace share the embedding dimension.
* Exceptions are modelled with `Except String` / explicit outcome types.
-/

namespace Canopy

/-- Embedding vectors: lists of rationals (numpy float vectors in the source). -/
abbrev Vec := List ℚ

/-- Elementwise vector addition (numpy `+` on equal-length vectors). -/
def vecAdd (a b : Vec) : Vec := List.zipWith (· + ·) a b

/-- Scalar multiple of a vector (numpy broadcasting `w * v`). -/
def vecScale (q : ℚ) (v : Vec) : Vec := v.map (q * ·)

/-- Sum of a list of vectors (numpy `np.sum(arr, axis=0)`); `[]` for no rows. -/
def vecSum : List Vec → Vec
  | [] => []
  | v :: rest => rest.foldl vecAdd v

/-- Mean of a list of vectors (`np.mean(arr, axis=0)` in
`compute_centroid` / `compute_cluster_centroid`). -/
def meanVec (vs : List Vec) : Vec := vecScale (1 / (vs.length : ℚ)) (vecSum vs)

/-! ## Data model (canopyresearch/models.py) -/

/-- `models.Workspace` (the fields the services read/write).
`core_centroid` is a JSON dict, `{}` until first written; we model it as
`Option` of the `{"vector": ..., "updated_at": ...}` payload written by
`update_workspace_core_centroid`. -/
structure Workspace where
  id : Nat
  name : String := ""
  description : String := ""
  core_centroid : Option (Vec × Nat) := none
  deriving Repr, DecidableEq

/-- `models.Source` health/bookkeeping fields used by the ingestion service. -/
structure Source where
  id : Nat
  workspace : Nat
  name : String := ""
  provider_type : String := "rss"
  status : String := "healthy"
  consecutive_failures : Int := 0
  auto_pause_threshold : Int := 5
  last_error : String := ""
  last_fetched : Option Nat := none
  last_successful_fetch : Option Nat := none
  deriving Repr, DecidableEq

/-- `models.Document` (fields used by the services). -/
structure Document where
  id : Nat
  workspace : Nat
  external_id : String := ""
  title : String := ""
  url : String := ""
  content : String := ""
  published_at : Option Nat := none
  embedding : Vec := []
  content_hash : String := ""
  ingested_at : Option Nat := none
  deriving Repr, DecidableEq

/-- `models.DocumentSource` join row (unique per (document, source)). -/
structure DocumentSource where
  document : Nat
  source : Nat
  deriving Repr, DecidableEq

/-- `models.IngestionLog` audit row. -/
structure IngestionLog where
  source : Nat
  started_at : Nat
  finished_at : Option Nat := none
  documents_found : Nat := 0
  documents_created : Nat := 0
  status : String := "success"
  error_message : String := ""
  deriving Repr, DecidableEq

/-- `models.Cluster` (fields used by the clustering service). -/
structure Cluster where
  id : Nat
  workspace : Nat
  centroid : Vec := []
  previous_centroid : Vec := []
  size : Nat := 0
  updated_at : Nat := 0
  deriving Repr, DecidableEq

/-- `models.ClusterMembership` join row (unique per (document, cluster)). -/
structure ClusterMembership where
  document : Nat
  cluster : Nat
  assigned_at : Nat := 0
  deriving Repr, DecidableEq

/-- `models.WorkspaceCoreSeed` audit row. -/
structure WorkspaceCoreSeed where
  workspace : Nat
  document : Nat
  deriving Repr, DecidableEq

/-- `models.WorkspaceCoreFeedback`: append-only vote log.  Rows are appended
with `created_at = now` (auto_now_add), so the state list is already in
`created_at` order and `order_by("created_at")` is the identity on it. -/
structure WorkspaceCoreFeedback where
  workspace : Nat
  document : Nat
  vote : String
  created_at : Nat := 0
  deriving Repr, DecidableEq

/-- The persisted state the services operate on. -/
structure DB where
  documents : List Document := []
  documentSources : List DocumentSource := []
  clusters : List Cluster := []
  memberships : List ClusterMembership := []
  coreSeeds : List WorkspaceCoreSeed := []
  coreFeedback : List WorkspaceCoreFeedback := []
  logs : List IngestionLog := []
  nextDocumentId : Nat := 1
  nextClusterId : Nat := 1
  deriving Repr, DecidableEq

/-! ## Ingestion (canopyresearch/services/ingestion.py) -/

/-- Normalized provider payload (`NORMALIZED_SCHEMA_KEYS`); `Option` models
a missing key / `None` value of the Python dict. -/
structure NormalizedDoc where
  external_id : Option String := none
  title : Option String := none
  url : Option String := none
  content : Option String := none
  published_at : Option Nat := none
  deriving Repr, DecidableEq

/-- Python `str.strip()`: leading and trailing whitespace removed.
Implemented on the character list (Lean's `String.trim` is defined through
byte positions, which the kernel cannot evaluate); same trimming rule. -/
def pyStrip (s : String) : String :=
  ⟨((s.data.dropWhile Char.isWhitespace).reverse.dropWhile Char.isWhitespace).reverse⟩

/-- Python `str.lower()` (character-wise case mapping). -/
def pyLower (s : String) : String := ⟨s.data.map Char.toLower⟩

/-- Python `s[:n]` — a character slice, i.e. `String.take`; implemented on
the character list for kernel evaluability (see `pyTake_eq_take`). -/
def pyTake (s : String) (n : Nat) : String := ⟨s.data.take n⟩

theorem pyTake_eq_take (s : String) (n : Nat) : pyTake s n = s.take n :=
  (String.take_eq s n).symm

/-- The string `compute_hash` feeds to sha256:
`title.strip().lower() + url + content[:500]`, with `or ""` fallbacks. -/
def compute_hash_key (data : NormalizedDoc) : String :=
  let title := pyLower (pyStrip (data.title.getD ""))
  let url := data.url.getD ""
  let content := pyTake (data.content.getD "") 500
  title ++ url ++ content

/-- `compute_hash(data)`: sha256 hexdigest of `compute_hash_key`; the digest
function itself is the opaque parameter `sha`. -/
def compute_hash (sha : String → String) (data : NormalizedDoc) : String :=
  sha (compute_hash_key data)

/-- `DocumentSource.objects.get_or_create(document=..., source=...)`. -/
def docSourceGetOrCreate (doc src : Nat) (links : List DocumentSource) :
    List DocumentSource :=
  if links.any (fun l => l.document == doc && l.source == src) then links
  else links ++ [⟨doc, src⟩]

/-- The match filter of `persist_document`'s dedup lookup:
`filter(workspace=workspace, content_hash=content_hash)`. -/
def hashMatch (ws : Nat) (h : String) (d : Document) : Bool :=
  d.workspace == ws && d.content_hash == h

/-- The `Document` row `persist_document` creates (ingestion.py lines
43-57), including the `published_at or now` fallback. -/
def newDocumentRow (sha : String → String) (now ws : Nat) (data : NormalizedDoc)
    (db : DB) : Document :=
  { id := db.nextDocumentId
    workspace := ws
    external_id := data.external_id.getD ""
    title := data.title.getD ""
    url := data.url.getD ""
    content := data.content.getD ""
    published_at := some (data.published_at.getD now)
    content_hash := compute_hash sha data
    ingested_at := some now }

/-- `persist_document(workspace, source, data)`.

`Document.objects.filter(workspace=..., content_hash=...).first()` is
modelled as `find?` on the state list; Django would order by
`-published_at`, but under the dedup invariant at most one row matches, so
the choice of match is immaterial.  Returns `(created, state')`. -/
def persist_document (sha : String → String) (now : Nat) (ws : Nat) (src : Nat)
    (data : NormalizedDoc) (db : DB) : Bool × DB :=
  match db.documents.find? (hashMatch ws (compute_hash sha data)) with
  | some existing =>
      (false, { db with
        documentSources := docSourceGetOrCreate existing.id src db.documentSources })
  | none =>
      let doc : Document := newDocumentRow sha now ws data db
      (true, { db with
        documents := db.documents ++ [doc]
        nextDocumentId := db.nextDocumentId + 1
        documentSources := docSourceGetOrCreate doc.id src db.documentSources })

/-- `mark_source_error(source, error)`. -/
def mark_source_error (source : Source) (error : String) : Source :=
  let source := { source with
    last_error := error
    consecutive_failures := source.consecutive_failures + 1 }
  if source.consecutive_failures ≥ source.auto_pause_threshold then
    { source with status := "paused" }
  else
    { source with status := "error" }

/-- Outcome of `ingest_source`: a normal return or a re-raised exception. -/
inductive IngestOutcome where
  | ok (found created : Nat)
  | raised (error : String)
  deriving Repr, DecidableEq

/-- `ingest_source(source)`.

The provider layer (`get_provider_class` / `provider.fetch()` /
`provider.normalize(raw)`) is external I/O; its combined result is the
parameter `fetch : Except String (List NormalizedDoc)` — either the list of
already-normalized documents of the run, or the exception it raised.
`persist_document` itself never raises in the source, so the per-document
loop always completes once fetch+normalize succeeded.  Returns the outcome,
the saved `Source` row and the new state. -/
def ingest_source (sha : String → String) (now : Nat)
    (fetch : Except String (List NormalizedDoc)) (src : Source) (db : DB) :
    IngestOutcome × Source × DB :=
  let log : IngestionLog := { source := src.id, started_at := now }
  match fetch with
  | .error e =>
      let src := mark_source_error src e
      let log := { log with
        finished_at := some now
        status := "error"
        error_message := e }
      (.raised e, src, { db with logs := db.logs ++ [log] })
  | .ok docs =>
      let found := docs.length
      let step := fun (acc : Nat × DB) (d : NormalizedDoc) =>
        let r := persist_document sha now src.workspace src.id d acc.2
        (if r.1 then acc.1 + 1 else acc.1, r.2)
      let res := docs.foldl step (0, db)
      let created := res.1
      let db := res.2
      let log := { log with
        documents_found := found
        documents_created := created
        finished_at := some now }
      let src := { src with
        last_successful_fetch := some now
        last_fetched := some now
        consecutive_failures := 0
        status := "healthy" }
      (.ok found created, src, { db with logs := db.logs ++ [log] })

/-! ## Clustering (canopyresearch/services/clustering.py)

`cosine_similarity` (services/utils.py) computes
`dot(a,b)/(‖a‖·‖b‖)` with numpy; the square roots in the norms are not
rational, so the similarity function is the explicit parameter
`sim : Vec → Vec → ℚ` of every definition that calls it.  The theorems
below hold for every `sim`, hence in particular for the cosine. -/

/-- `DEFAULT_CLUSTER_THRESHOLD`. -/
def DEFAULT_CLUSTER_THRESHOLD : ℚ := 7 / 10

/-- The cluster queryset scanned by `assign_document_to_cluster`:
`Cluster.objects.filter(workspace=workspace).exclude(centroid=[])`. -/
def workspaceClusters (db : DB) (ws : Nat) : List Cluster :=
  db.clusters.filter (fun c => c.workspace == ws && !(c.centroid == []))

/-- One iteration of the best-cluster loop of `assign_document_to_cluster`
(lines 92-103): skip clusters with empty centroids, track the strictly
best similarity seen so far. -/
def scanStep (sim : Vec → Vec → ℚ) (emb : Vec) (acc : Option Cluster × ℚ)
    (c : Cluster) : Option Cluster × ℚ :=
  if c.centroid = [] then acc
  else
    let s := sim emb c.centroid
    if s > acc.2 then (some c, s) else acc

/-- The best-cluster scan of `assign_document_to_cluster` (lines 88-103):
fold with `best_cluster = None`, `best_similarity = -1.0`. -/
def bestClusterScan (sim : Vec → Vec → ℚ) (emb : Vec) (cs : List Cluster) :
    Option Cluster × ℚ :=
  cs.foldl (scanStep sim emb) (none, -1)

/-- `ClusterMembership.objects.get_or_create(document=..., cluster=...)`. -/
def membershipGetOrCreate (doc cl now : Nat) (ms : List ClusterMembership) :
    List ClusterMembership :=
  if ms.any (fun m => m.document == doc && m.cluster == cl) then ms
  else ms ++ [⟨doc, cl, now⟩]

/-- The `Cluster` row `assign_document_to_cluster` creates when no cluster
is close enough (lines 120-123): centroid seeded with the document's
embedding, size 1. -/
def newClusterRow (now : Nat) (doc : Document) (db : DB) : Cluster :=
  { id := db.nextClusterId
    workspace := doc.workspace
    centroid := doc.embedding
    size := 1
    updated_at := now }

/-- The saved form of a joined cluster (lines 105-111): membership added
with `get_or_create`, `size` recomputed as the live membership count,
`save(update_fields=["size", "updated_at"])`. -/
def joinedClusterRow (now : Nat) (doc : Document) (bc : Cluster) (db : DB) :
    Cluster :=
  { bc with
    size := ((membershipGetOrCreate doc.id bc.id now db.memberships).filter
      (fun m => m.cluster == bc.id)).length
    updated_at := now }

/-- `assign_document_to_cluster(document, threshold)`.

The workspace-scoped `select_for_update` lock serialises the critical
section; the embedding models the sequential execution inside it.  Saving
the joined cluster is modelled by replacing the rows with matching id.
Returns the assigned cluster (as saved) and the new state. -/
def assign_document_to_cluster (sim : Vec → Vec → ℚ) (now : Nat)
    (doc : Document) (threshold : ℚ) (db : DB) : Option Cluster × DB :=
  if doc.embedding = [] then (none, db)
  else
    let createNew : Option Cluster × DB :=
      let nc := newClusterRow now doc db
      (some nc, { db with
        clusters := db.clusters ++ [nc]
        nextClusterId := db.nextClusterId + 1
        memberships := db.memberships ++ [⟨doc.id, nc.id, now⟩] })
    match bestClusterScan sim doc.embedding (workspaceClusters db doc.workspace) with
    | (some bc, bestSim) =>
        if bestSim ≥ threshold then
          let bc' := joinedClusterRow now doc bc db
          (some bc', { db with
            memberships := membershipGetOrCreate doc.id bc.id now db.memberships
            clusters := db.clusters.map (fun c => if c.id == bc.id then bc' else c) })
        else createNew
    | (none, _) => createNew

/-- `compute_cluster_centroid(cluster)`: mean of the member documents'
non-empty embeddings (`select_related("document")` modelled by looking the
document row up by id); `None` when there are none. -/
def compute_cluster_centroid (db : DB) (cluster : Cluster) : Option Vec :=
  let embeddings :=
    (db.memberships.filter (fun m => m.cluster == cluster.id)).filterMap
      (fun m =>
        (db.documents.find? (fun d => d.id == m.document)).bind
          (fun d => if d.embedding = [] then none else some d.embedding))
  if embeddings = [] then none else some (meanVec embeddings)

/-- One iteration of the `reconcile_cluster_centroids` loop: recompute the
centroid of `cluster`; persist centroid and live size if non-empty, else
delete the cluster (Django cascades the delete to its memberships). -/
def reconcileStep (db : DB) (cluster : Cluster) : DB :=
  match compute_cluster_centroid db cluster with
  | some v =>
      let size := (db.memberships.filter (fun m => m.cluster == cluster.id)).length
      let updated := db.clusters.map (fun c =>
        if c.id == cluster.id then { c with centroid := v, size := size } else c)
      { db with clusters := updated }
  | none =>
      { db with
        clusters := db.clusters.filter (fun c => !(c.id == cluster.id))
        memberships := db.memberships.filter (fun m => !(m.cluster == cluster.id)) }

/-- `reconcile_cluster_centroids(workspace?)`: the queryset snapshot is
taken once, then each cluster is processed in turn. -/
def reconcile_cluster_centroids (db : DB) (ws : Option Nat) : DB :=
  let snapshot : List Cluster := match ws with
    | some w => db.clusters.filter (fun c => c.workspace == w)
    | none => db.clusters
  snapshot.foldl reconcileStep db

/-! ## Workspace core service (canopyresearch/services/core.py) -/

/-- Python-dict insert with "most recent vote wins" overwrite semantics:
an existing key keeps its position and gets the new value, a new key is
appended (Python dicts preserve insertion order). -/
def dictInsert (k : Nat) (v : ℚ) (m : List (Nat × ℚ)) : List (Nat × ℚ) :=
  if m.any (fun p => p.1 == k) then
    m.map (fun p => if p.1 == k then (k, v) else p)
  else m ++ [(k, v)]

/-- The per-document weight map of `update_workspace_core_centroid`
(lines 105-124): iterate feedback in `created_at` order overwriting with
`up → 1.0`, `down → -0.5`; then add weight `1.0` for each seed document not
already voted on. -/
def documentWeights (ws : Nat) (db : DB) : List (Nat × ℚ) :=
  let fromVotes :=
    (db.coreFeedback.filter (fun f => f.workspace == ws)).foldl
      (fun m f => dictInsert f.document (if f.vote == "up" then 1 else -(1/2)) m)
      []
  (db.coreSeeds.filter (fun s => s.workspace == ws)).foldl
    (fun m s => if m.any (fun p => p.1 == s.document) then m
                else m ++ [(s.document, 1)])
    fromVotes

/-- The `(embedding, weight)` pairs of `update_workspace_core_centroid`
(lines 126-137): documents fetched by id, rows without a non-empty
embedding skipped. -/
def weightedEmbeddings (ws : Nat) (db : DB) : List (Vec × ℚ) :=
  (documentWeights ws db).filterMap
    (fun p =>
      (db.documents.find? (fun d => d.id == p.1)).bind
        (fun d => if d.embedding = [] then none else some (d.embedding, p.2)))

/-- `update_workspace_core_centroid(workspace)`: returns the computed
centroid (or `none`) together with the `Workspace` row as left by the call.
Note the single-embedding branch (lines 144-150) returns without touching
the workspace; only the multi-embedding branch persists
`{"vector": centroid, "updated_at": now}` (lines 169-171). -/
def update_workspace_core_centroid (now : Nat) (ws : Workspace) (db : DB) :
    Option Vec × Workspace :=
  match weightedEmbeddings ws.id db with
  | [] => (none, ws)
  | [(vec, w)] => if w < 0 then (none, ws) else (some vec, ws)
  | we =>
      let weights := we.map (fun p => p.2)
      let total := (weights.map (fun w => |w|)).sum
      if total = 0 then (none, ws)
      else
        let centroid := vecSum (we.map (fun p => vecScale (p.2 / total) p.1))
        (some centroid, { ws with core_centroid := some (centroid, now) })

/-- `add_core_feedback(workspace, document, vote)`: validates the vote and
the document's embedding, appends the feedback row, then itself calls
`update_workspace_core_centroid` (line 213).  Returns the created row, the
workspace as left by the centroid update, and the new state. -/
def add_core_feedback (now : Nat) (ws : Workspace) (doc : Document)
    (vote : String) (db : DB) :
    Except String (WorkspaceCoreFeedback × Workspace × DB) :=
  if !(vote == "up" || vote == "down") then
    .error ("Invalid vote: " ++ vote ++ ". Must be up or down")
  else if doc.embedding = [] then
    .error "Document does not have an embedding. Process it first."
  else
    let fb : WorkspaceCoreFeedback :=
      { workspace := ws.id, document := doc.id, vote := vote, created_at := now }
    let db := { db with coreFeedback := db.coreFeedback ++ [fb] }
    let ws := (update_workspace_core_centroid now ws db).2
    .ok (fb, ws, db)

/-! ## Novelty scoring (canopyresearch/services/scoring/novelty.py) -/

/-- `compute_novelty_score(document)` with the cosine as parameter `sim`.
`document.cluster_memberships.first()` (no `Meta.ordering` on
`ClusterMembership`, so primary-key order = state-list order) picks the
assigned cluster to exclude. -/
def compute_novelty_score (sim : Vec → Vec → ℚ) (doc : Document) (db : DB) : ℚ :=
  if doc.embedding = [] then 0
  else
    let clusters := workspaceClusters db doc.workspace
    if clusters = [] then 1
    else
      let assigned : Option Nat :=
        (db.memberships.find? (fun m => m.document == doc.id)).map
          (fun m => m.cluster)
      let best := clusters.foldl
        (fun best c =>
          if assigned = some c.id then best
          else if c.centroid = [] then best
          else
            let s := sim doc.embedding c.centroid
            if s > best then s else best)
        (-1)
      if best < 0 then 1 else 1 - max 0 best

/-! ## Provider SSRF gate (canopyresearch/services/providers.py)

`_is_url_allowed` delegates URL and IP parsing to the Python standard
library (`urllib.parse.urlparse`, `ipaddress.ip_address`); those library
behaviours are embedded below for the inputs the gate handles (http(s)
URLs, IPv4 dotted quads, IPv6 literals with optional scope id).  Strings
are processed as `List Char`. -/

/-- Characters `urlsplit` accepts inside a URL scheme. -/
def isSchemeChar (c : Char) : Bool :=
  c.isAlpha || c.isDigit || c == '+' || c == '-' || c == '.'

/-- Drop a leading `scheme:` the way `urlsplit` recognises one (a non-empty
run of scheme characters starting with a letter, followed by `:`). -/
def dropScheme (cs : List Char) : List Char :=
  let pre := cs.takeWhile (fun c => c != ':')
  match cs.drop pre.length with
  | ':' :: rest =>
      if !pre.isEmpty && (pre.headD ' ').isAlpha && pre.all isSchemeChar then rest
      else cs
  | _ => cs

/-- The netloc of a URL: present only when (after the scheme) the remainder
starts with `//`; runs until the first `/`, `?` or `#`. -/
def netlocChars (url : String) : List Char :=
  match dropScheme url.toList with
  | '/' :: '/' :: rest => rest.takeWhile (fun c => c != '/' && c != '?' && c != '#')
  | _ => []

/-- Strip the userinfo part: everything up to the last `@` of the netloc. -/
def afterLastAt (cs : List Char) : List Char :=
  if cs.contains '@' then (cs.reverse.takeWhile (fun c => c != '@')).reverse else cs

/-- `urlparse(url).hostname`: netloc minus userinfo; for a bracketed IPv6
literal the bracket contents, otherwise everything before the first `:`
(the port); lowercased.  Empty result models `hostname` being `None`. -/
def hostnameChars (url : String) : List Char :=
  let hostinfo := afterLastAt (netlocChars url)
  let h :=
    if hostinfo.contains '[' then
      (((hostinfo.dropWhile (fun c => c != '[')).drop 1).takeWhile (fun c => c != ']'))
    else hostinfo.takeWhile (fun c => c != ':')
  h.map Char.toLower

/-- Split on a separator character, like `str.split(sep)` (never empty). -/
def splitOnChar (sep : Char) : List Char → List (List Char)
  | [] => [[]]
  | c :: rest =>
      let r := splitOnChar sep rest
      if c == sep then [] :: r
      else
        match r with
        | h :: t => (c :: h) :: t
        | [] => [[c]]

/-- Decimal value of a digit run. -/
def octetVal (s : List Char) : Nat :=
  s.foldl (fun n c => n * 10 + (c.toNat - '0'.toNat)) 0

/-- A valid IPv4 octet for `ipaddress`: 1-3 decimal digits, ≤ 255, no
leading zero. -/
def ipv4OctetOK (s : List Char) : Bool :=
  decide (1 ≤ s.length) && decide (s.length ≤ 3) && s.all Char.isDigit &&
  (s.length == 1 || s.headD '0' != '0') && decide (octetVal s ≤ 255)

/-- `ipaddress.IPv4Address` validity: four dot-separated valid octets. -/
def parseIPv4 (cs : List Char) : Bool :=
  let parts := splitOnChar '.' cs
  parts.length == 4 && parts.all ipv4OctetOK

/-- Hexadecimal digit. -/
def isHexDigitChar (c : Char) : Bool :=
  c.isDigit || ('a' ≤ c && c ≤ 'f') || ('A' ≤ c && c ≤ 'F')

/-- A valid IPv6 hextet: 1-4 hex digits. -/
def hextetOK (s : List Char) : Bool :=
  decide (1 ≤ s.length) && decide (s.length ≤ 4) && s.all isHexDigitChar

/-- `ipaddress.IPv6Address` validity (without scope id), following the
stdlib algorithm: split on `:`; an embedded dotted quad may close the
address; at most one interior empty group (the `::` abbreviation), with
leading/trailing lone `:` only as part of `::`; group counts must leave at
least one zero group for `::`, or be exactly 8 without it. -/
def parseIPv6Core (cs : List Char) : Bool :=
  let parts0 := splitOnChar ':' cs
  if parts0.length < 3 then false
  else
    let lastPart := parts0.getLastD []
    let hasDot := lastPart.contains '.'
    if hasDot && !parseIPv4 lastPart then false
    else
      let parts := if hasDot then parts0.dropLast ++ [['0'], ['0']] else parts0
      let n := parts.length
      if decide (9 < n) then false
      else
        let interior := (List.range n).filter
          (fun i => decide (0 < i) && decide (i < n - 1) && (parts.getD i [' ']).isEmpty)
        match interior with
        | [] =>
            n == 8 && parts.all hextetOK
        | [i] =>
            let aHi : Option Nat :=
              if (parts.headD [' ']).isEmpty then
                (if i == 1 then some 0 else none)
              else some i
            let aLo : Option Nat :=
              if (parts.getLastD [' ']).isEmpty then
                (if i == n - 2 then some 0 else none)
              else some (n - i - 1)
            match aHi, aLo with
            | some hi, some lo =>
                decide (hi + lo ≤ 7) && (parts.take hi).all hextetOK &&
                (parts.drop (n - lo)).all hextetOK
            | _, _ => false
        | _ => false

/-- `ipaddress.IPv6Address` validity with an optional `%scope` suffix. -/
def parseIPv6 (cs : List Char) : Bool :=
  let addr := cs.takeWhile (fun c => c != '%')
  if addr.length == cs.length then parseIPv6Core cs
  else
    let scope := cs.drop (addr.length + 1)
    !scope.isEmpty && !scope.contains '%' && parseIPv6Core addr

/-- `ipaddress.ip_address` succeeds: IPv4 first, then IPv6. -/
def isValidIPLiteral (cs : List Char) : Bool := parseIPv4 cs || parseIPv6 cs

/-- `".".join(parts)`. -/
def joinDots : List (List Char) → List Char
  | [] => []
  | p :: rest => rest.foldl (fun acc q => acc ++ '.' :: q) p

/-- `_is_url_allowed(url)` (providers.py lines 31-91).

Lines 63-71 deny every hostname that parses as an IP address: the branch
examining `is_private / is_loopback / is_link_local / is_reserved` and the
unconditional `return False` after it both deny, so the embedding folds
them into one denial.  The surrounding `try/except` cannot fire in the
embedding because every modelled step is total. -/
def is_url_allowed (url : String) : Bool :=
  let hostname := hostnameChars url
  if hostname.isEmpty then false
  else if hostname.map Char.toLower == "localhost".toList then false
  else
    let h1 :=
      if hostname.headD ' ' == '[' && hostname.getLastD ' ' == ']' then
        (hostname.drop 1).dropLast
      else hostname
    let h2 :=
      if (h1.filter (fun c => c == ':')).length == 1 then
        h1.takeWhile (fun c => c != ':')
      else h1
    if isValidIPLiteral h2 then false
    else
      let parts := splitOnChar '.' h2
      let quads := (List.range (parts.length - 3)).map
        (fun i => joinDots ((parts.drop i).take 4))
      if quads.any isValidIPLiteral then false
      else true

/-- The URLs `extract_article_content(url)` issues an HTTP GET to: the gate
runs before any network call, so a denied URL is never requested. -/
def extract_article_requests (url : String) : List String :=
  if is_url_allowed url then [url] else []

/-- A feed entry as seen by `RSSProvider.fetch` after `feedparser.parse`
(external parsing): its `link`, and the http(s) links `_extract_links_from_html`
finds in its body (used when `extract_body_links` is set). -/
structure RSSEntry where
  link : String := ""
  summaryLinks : List String := []
  deriving Repr, DecidableEq

/-- The sequence of URLs `RSSProvider.fetch` issues HTTP requests to
(providers.py lines 255-312): nothing when the feed URL is missing;
otherwise the configured feed URL itself — requested with no
`_is_url_allowed` check — followed by the article URLs fetched through
`extract_article_content`, which are gated. -/
def rss_fetch_requests (cfgUrl : String) (fetchFullArticle extractBodyLinks : Bool)
    (maxLinksPerEntry : Nat) (entries : List RSSEntry) : List String :=
  if cfgUrl == "" then []
  else
    cfgUrl :: entries.flatMap (fun e =>
      if extractBodyLinks then
        (e.summaryLinks.take maxLinksPerEntry).flatMap (fun l =>
          if fetchFullArticle && l != "" then extract_article_requests l else [])
      else if fetchFullArticle && e.link != "" then extract_article_requests e.link
      else [])

/-- Claim-side predicate (from the claim's words, for the counterexample):
the URL's parsed hostname is a literal IPv4 loopback (127/8),
private (10/8, 172.16/12, 192.168/16), or link-local (169.254/16) address. -/
def urlHostForbiddenIPv4 (url : String) : Bool :=
  let h := hostnameChars url
  parseIPv4 h &&
  match (splitOnChar '.' h).map octetVal with
  | [a, b, _, _] =>
      a == 127 || a == 10 || (a == 172 && decide (16 ≤ b) && decide (b ≤ 31)) ||
      (a == 192 && b == 168) || (a == 169 && b == 254)
  | _ => false

/-! ## Helper lemmas -/

theorem find?_append_of_none {α} (p : α → Bool) (l1 l2 : List α)
    (h : ∀ x ∈ l1, p x = false) : (l1 ++ l2).find? p = l2.find? p := by
  induction l1 with
  | nil => rfl
  | cons a l ih =>
      have ha : p a = false := h a (by simp)
      simp only [List.cons_append, List.find?_cons, ha, cond_false]
      exact ih (fun x hx => h x (by simp [hx]))

theorem persist_document_found (sha : String → String) (now ws src : Nat)
    (data : NormalizedDoc) (db : DB) (existing : Document)
    (hfind : db.documents.find? (hashMatch ws (compute_hash sha data)) = some existing) :
    persist_document sha now ws src data db =
      (false, { db with
        documentSources := docSourceGetOrCreate existing.id src db.documentSources }) := by
  unfold persist_document
  rw [hfind]

theorem persist_document_create (sha : String → String) (now ws src : Nat)
    (data : NormalizedDoc) (db : DB)
    (hfind : db.documents.find? (hashMatch ws (compute_hash sha data)) = none) :
    persist_document sha now ws src data db =
      (true, { db with
        documents := db.documents ++ [newDocumentRow sha now ws data db]
        nextDocumentId := db.nextDocumentId + 1
        documentSources := docSourceGetOrCreate db.nextDocumentId src db.documentSources }) := by
  unfold persist_document
  rw [hfind]
  rfl

theorem mem_docSourceGetOrCreate (doc src : Nat) (links : List DocumentSource) :
    (⟨doc, src⟩ : DocumentSource) ∈ docSourceGetOrCreate doc src links := by
  unfold docSourceGetOrCreate
  split
  · next h =>
      rcases List.any_eq_true.mp h with ⟨l, hl, hp⟩
      simp only [Bool.and_eq_true, beq_iff_eq] at hp
      have : l = ⟨doc, src⟩ := by cases l; simp_all
      rwa [this] at hl
  · simp

/-! ## Claims about ingestion -/

/-- The deduplication contract: at most one document per
(workspace, non-empty content_hash). -/
def DedupInvariant (db : DB) : Prop :=
  ∀ d1 ∈ db.documents, ∀ d2 ∈ db.documents,
    d1.workspace = d2.workspace → d1.content_hash = d2.content_hash →
    d1.content_hash ≠ "" → d1 = d2

theorem persist_document_preserves_dedup (sha : String → String)
    (now ws src : Nat) (data : NormalizedDoc) (db : DB)
    (hinv : DedupInvariant db) :
    DedupInvariant (persist_document sha now ws src data db).2 := by
  cases hf : db.documents.find? (hashMatch ws (compute_hash sha data)) with
  | some existing =>
      rw [persist_document_found sha now ws src data db existing hf]
      exact hinv
  | none =>
      rw [persist_document_create sha now ws src data db hf]
      intro d1 h1 d2 h2 hw hh hne
      have hnomatch : ∀ d ∈ db.documents,
          ¬(d.workspace = ws ∧ d.content_hash = compute_hash sha data) := by
        intro d hd hcontra
        have := List.find?_eq_none.mp hf d hd
        simp only [hashMatch, Bool.and_eq_true, beq_iff_eq, not_and] at this
        exact this hcontra.1 hcontra.2
      simp only [List.mem_append, List.mem_singleton] at h1 h2
      rcases h1 with h1 | h1 <;> rcases h2 with h2 | h2
      · exact hinv d1 h1 d2 h2 hw hh hne
      · exfalso
        subst h2
        exact hnomatch d1 h1 ⟨by simpa [newDocumentRow] using hw,
          by simpa [newDocumentRow] using hh⟩
      · exfalso
        subst h1
        exact hnomatch d2 h2 ⟨by simpa [newDocumentRow] using hw.symm,
          by simpa [newDocumentRow] using hh.symm⟩
      · rw [h1, h2]

/-- C1: `persist_document` is idempotent and enforces the deduplication
contract: with no prior document for the payload's (workspace, hash), the
first call creates exactly one document and returns `created = true`; an
identical second call (possibly from another source) creates nothing,
returns `created = false`, and still records the `DocumentSource` link for
that source; and every `persist_document` call preserves the invariant that
two documents of one workspace with equal non-empty `content_hash` are the
same document. -/
theorem persist_document_idempotent_dedup (sha : String → String)
    (now now' ws src src' : Nat) (data : NormalizedDoc) (db : DB)
    (hnone : ∀ d ∈ db.documents,
      ¬(d.workspace = ws ∧ d.content_hash = compute_hash sha data)) :
    (persist_document sha now ws src data db).1 = true ∧
    (persist_document sha now' ws src'
        data (persist_document sha now ws src data db).2).1 = false ∧
    (persist_document sha now' ws src'
        data (persist_document sha now ws src data db).2).2.documents =
      (persist_document sha now ws src data db).2.documents ∧
    ((persist_document sha now ws src data db).2.documents.filter
        (hashMatch ws (compute_hash sha data))).length = 1 ∧
    (persist_document sha now ws src data db).2.documents.length
      = db.documents.length + 1 ∧
    (⟨db.nextDocumentId, src'⟩ : DocumentSource) ∈
      (persist_document sha now' ws src'
        data (persist_document sha now ws src data db).2).2.documentSources ∧
    (∀ (db' : DB) (now₀ ws₀ src₀ : Nat) (data₀ : NormalizedDoc),
      DedupInvariant db' →
      DedupInvariant (persist_document sha now₀ ws₀ src₀ data₀ db').2) := by
  have hpred : ∀ d ∈ db.documents,
      hashMatch ws (compute_hash sha data) d = false := by
    intro d hd
    have := hnone d hd
    simp only [hashMatch, Bool.and_eq_false_iff, beq_eq_false_iff_ne, ne_eq]
    by_contra hne
    push_neg at hne
    exact this ⟨hne.1, hne.2⟩
  have hfind : db.documents.find? (hashMatch ws (compute_hash sha data)) = none := by
    rw [List.find?_eq_none]
    intro d hd
    simp [hpred d hd]
  have h1 := persist_document_create sha now ws src data db hfind
  have hmatchnew : hashMatch ws (compute_hash sha data)
      (newDocumentRow sha now ws data db) = true := by
    simp [hashMatch, newDocumentRow]
  have hfind2 : (db.documents ++ [newDocumentRow sha now ws data db]).find?
      (hashMatch ws (compute_hash sha data)) = some (newDocumentRow sha now ws data db) := by
    rw [find?_append_of_none _ _ _ hpred]
    simp [List.find?_cons, hmatchnew]
  have h2 := persist_document_found sha now' ws src' data
      { db with
        documents := db.documents ++ [newDocumentRow sha now ws data db]
        nextDocumentId := db.nextDocumentId + 1
        documentSources := docSourceGetOrCreate db.nextDocumentId src db.documentSources }
      (newDocumentRow sha now ws data db) (by simpa using hfind2)
  refine ⟨by rw [h1], ?_, ?_, ?_, ?_, ?_, ?_⟩
  · rw [h1]
    simp only
    rw [h2]
  · rw [h1]
    simp only
    rw [h2]
  · rw [h1]
    simp only
    rw [List.filter_append]
    have : db.documents.filter (hashMatch ws (compute_hash sha data)) = [] :=
      List.filter_eq_nil_iff.mpr (fun d hd => by simp [hpred d hd])
    simp [this, hmatchnew]
  · rw [h1]
    simp
  · rw [h1]
    simp only
    rw [h2]
    simp only
    exact mem_docSourceGetOrCreate db.nextDocumentId src' _
  · intro db' now₀ ws₀ src₀ data₀ hinv
    exact persist_document_preserves_dedup sha now₀ ws₀ src₀ data₀ db' hinv

/-- Concrete payload for the C1 witness. -/
def w1Data : NormalizedDoc :=
  { external_id := some "ext1", title := some "Title",
    url := some "https://example.com", content := some "Content" }

/-- C1 witness: on an empty store, persisting the same payload twice from
two sources creates once, dedups the second call, and links source 2. -/
theorem persist_document_idempotent_dedup_w :
    (persist_document (fun s => s) 0 1 1 w1Data {}).1 = true ∧
    (persist_document (fun s => s) 3 1 2 w1Data
        (persist_document (fun s => s) 0 1 1 w1Data {}).2).1 = false ∧
    (⟨1, 2⟩ : DocumentSource) ∈ (persist_document (fun s => s) 3 1 2 w1Data
        (persist_document (fun s => s) 0 1 1 w1Data {}).2).2.documentSources := by
  have h := persist_document_idempotent_dedup (fun s => s) 0 3 1 1 2 w1Data {}
    (by intro d hd; simp at hd)
  exact ⟨h.1, h.2.1, by simpa using h.2.2.2.2.2.1⟩

/-- The empty-URL payload of the repository's own test
`test_validation_error_includes_external_id`. -/
def c4Data : NormalizedDoc :=
  { external_id := some "ext123", title := some "Title", url := some "",
    content := some "Content" }

/-- C4 (code evaluated at the failing input): `persist_document` performs
no URL validation: on a payload with an empty URL it returns
`created = true` and stores a `Document` row with `url = ""`.  The claim —
and the repository's own tests `test_rejects_empty_url` /
`test_rejects_missing_url` / `test_validation_error_includes_external_id` —
require a validation failure naming the source and external_id, with no
document created. -/
theorem persist_document_accepts_empty_url :
    (persist_document (fun s => s) 0 1 1 c4Data {}).1 = true ∧
    ((persist_document (fun s => s) 0 1 1 c4Data {}).2.documents.filter
      (fun d => d.url == "")).length = 1 := ⟨rfl, rfl⟩

/-- The three-document batch of the repository's test
`test_skips_invalid_documents` (one document with an empty URL). -/
def c5Docs : List NormalizedDoc :=
  [ { external_id := some "1", title := some "Valid",
      url := some "https://example.com/1", content := some "Content 1" },
    { external_id := some "2", title := some "Invalid", url := some "",
      content := some "Content 2" },
    { external_id := some "3", title := some "Valid 2",
      url := some "https://example.com/3", content := some "Content 3" } ]

/-- The source row of the ingestion tests. -/
def c5Source : Source := { id := 1, workspace := 1, name := "Test" }

/-- C5 (code evaluated at the failing input): `ingest_source` has no
per-document validation or skip: on the batch with one empty-URL document
it returns `(found, created) = (3, 3)` and persists the empty-URL
document, where the claim — and the repository's own test
`test_skips_invalid_documents` — require `(3, 2)` with that document
skipped and the rest still processed. -/
theorem ingest_source_does_not_skip_invalid :
    (ingest_source (fun s => s) 0 (.ok c5Docs) c5Source {}).1 = .ok 3 3 ∧
    ((ingest_source (fun s => s) 0 (.ok c5Docs) c5Source {}).2.2.documents.filter
      (fun d => d.url == "")).length = 1 := by decide

theorem mark_source_error_spec (src : Source) (e : String) :
    mark_source_error src e =
      { src with
        last_error := e
        consecutive_failures := src.consecutive_failures + 1
        status := if src.consecutive_failures + 1 ≥ src.auto_pause_threshold
                  then "paused" else "error" } := by
  unfold mark_source_error
  split
  · next h => rw [if_pos h]
  · next h => rw [if_neg h]

/-- C7: the two source-health transitions: `mark_source_error` increments
`consecutive_failures`, records the error text and sets status `"paused"`
exactly when the incremented count reaches `auto_pause_threshold` (else
`"error"`); a completed `ingest_source` run resets `consecutive_failures`
to 0 and status to `"healthy"`; and in particular from
`auto_pause_threshold - 1` a single error call yields the threshold count
and `"paused"`. -/
theorem source_health_transitions (src : Source) (e : String)
    (sha : String → String) (now : Nat) (docs : List NormalizedDoc) (db : DB) :
    ((mark_source_error src e).consecutive_failures = src.consecutive_failures + 1 ∧
     (mark_source_error src e).last_error = e ∧
     (mark_source_error src e).status =
       (if src.consecutive_failures + 1 ≥ src.auto_pause_threshold then "paused"
        else "error")) ∧
    ((ingest_source sha now (.ok docs) src db).2.1.consecutive_failures = 0 ∧
     (ingest_source sha now (.ok docs) src db).2.1.status = "healthy") ∧
    (src.consecutive_failures = src.auto_pause_threshold - 1 →
      (mark_source_error src e).consecutive_failures = src.auto_pause_threshold ∧
      (mark_source_error src e).status = "paused") := by
  refine ⟨⟨?_, ?_, ?_⟩, ⟨rfl, rfl⟩, ?_⟩
  · rw [mark_source_error_spec]
  · rw [mark_source_error_spec]
  · rw [mark_source_error_spec]
  · intro h
    rw [mark_source_error_spec]
    constructor
    · simp only
      omega
    · simp only
      rw [if_pos (by omega)]

/-- The source row of the auto-pause test (`consecutive_failures = 4`,
`auto_pause_threshold = 5`). -/
def c7Source : Source :=
  { id := 1, workspace := 1, consecutive_failures := 4, auto_pause_threshold := 5 }

/-- C7 witness: one error on a source at 4 of 5 failures pauses it. -/
theorem source_health_transitions_w :
    (mark_source_error c7Source "boom").consecutive_failures = 5 ∧
    (mark_source_error c7Source "boom").status = "paused" := by
  have h := (source_health_transitions c7Source "boom" (fun s => s) 0 [] {}).2.2
    (by decide)
  exact ⟨h.1.trans rfl, h.2⟩

/-! ## Claims about clustering -/

theorem mem_workspaceClusters (db : DB) (ws : Nat) (c : Cluster)
    (h : c ∈ workspaceClusters db ws) :
    c ∈ db.clusters ∧ c.workspace = ws ∧ c.centroid ≠ [] := by
  unfold workspaceClusters at h
  have h' := List.mem_filter.mp h
  refine ⟨h'.1, ?_, ?_⟩
  · have := h'.2
    simp only [Bool.and_eq_true, beq_iff_eq] at this
    exact this.1
  · have := h'.2
    simp only [Bool.and_eq_true, Bool.not_eq_true', beq_eq_false_iff_ne, ne_eq] at this
    exact this.2

theorem scanStep_snd_le (sim : Vec → Vec → ℚ) (emb : Vec)
    (acc : Option Cluster × ℚ) (c : Cluster) :
    acc.2 ≤ (scanStep sim emb acc c).2 := by
  unfold scanStep
  split
  · exact le_refl _
  · dsimp only
    split
    · next h => exact le_of_lt h
    · exact le_refl _

theorem scan_foldl_snd_le (sim : Vec → Vec → ℚ) (emb : Vec) (cs : List Cluster)
    (acc : Option Cluster × ℚ) :
    acc.2 ≤ (cs.foldl (scanStep sim emb) acc).2 := by
  induction cs generalizing acc with
  | nil => exact le_refl _
  | cons c cs ih => exact le_trans (scanStep_snd_le sim emb acc c) (ih _)

theorem scan_foldl_dominates (sim : Vec → Vec → ℚ) (emb : Vec)
    (cs : List Cluster) (acc : Option Cluster × ℚ) :
    ∀ c ∈ cs, c.centroid ≠ [] →
      sim emb c.centroid ≤ (cs.foldl (scanStep sim emb) acc).2 := by
  induction cs generalizing acc with
  | nil => intro c hc; simp at hc
  | cons a cs ih =>
      intro c hc hcen
      rcases List.mem_cons.mp hc with rfl | hc
      · have hstep : sim emb c.centroid ≤ (scanStep sim emb acc c).2 := by
          unfold scanStep
          rw [if_neg hcen]
          dsimp only
          split
          · exact le_refl _
          · next h => exact le_of_not_lt h
        exact le_trans hstep (scan_foldl_snd_le sim emb cs _)
      · exact ih _ c hc hcen

theorem scan_foldl_char (sim : Vec → Vec → ℚ) (emb : Vec) (cs : List Cluster)
    (acc : Option Cluster × ℚ) :
    cs.foldl (scanStep sim emb) acc = acc ∨
    ∃ c ∈ cs, c.centroid ≠ [] ∧
      cs.foldl (scanStep sim emb) acc = (some c, sim emb c.centroid) ∧
      acc.2 < sim emb c.centroid := by
  induction cs generalizing acc with
  | nil => exact Or.inl rfl
  | cons a cs ih =>
      simp only [List.foldl_cons]
      by_cases hcen : a.centroid = []
      · have hstep : scanStep sim emb acc a = acc := by
          unfold scanStep; rw [if_pos hcen]
        rw [hstep]
        rcases ih acc with h | ⟨c, hc, hcen', heq, hlt⟩
        · exact Or.inl h
        · exact Or.inr ⟨c, List.mem_cons_of_mem a hc, hcen', heq, hlt⟩
      · by_cases himp : sim emb a.centroid > acc.2
        · have hstep : scanStep sim emb acc a = (some a, sim emb a.centroid) := by
            unfold scanStep; rw [if_neg hcen]; dsimp only; rw [if_pos himp]
          rw [hstep]
          rcases ih (some a, sim emb a.centroid) with h | ⟨c, hc, hcen', heq, hlt⟩
          · exact Or.inr ⟨a, List.mem_cons_self a cs, hcen, h, himp⟩
          · exact Or.inr ⟨c, List.mem_cons_of_mem a hc, hcen', heq, lt_trans himp hlt⟩
        · have hstep : scanStep sim emb acc a = acc := by
            unfold scanStep; rw [if_neg hcen]; dsimp only; rw [if_neg himp]
          rw [hstep]
          rcases ih acc with h | ⟨c, hc, hcen', heq, hlt⟩
          · exact Or.inl h
          · exact Or.inr ⟨c, List.mem_cons_of_mem a hc, hcen', heq, hlt⟩

theorem bestClusterScan_none (sim : Vec → Vec → ℚ) (emb : Vec)
    (cs : List Cluster) (s : ℚ)
    (h : bestClusterScan sim emb cs = (none, s)) :
    s = -1 ∧ ∀ c ∈ cs, c.centroid ≠ [] → sim emb c.centroid ≤ -1 := by
  unfold bestClusterScan at h
  have hs : s = -1 := by
    rcases scan_foldl_char sim emb cs (none, -1) with hc | ⟨c, _, _, heq, _⟩
    · rw [hc] at h
      simpa using h.symm
    · rw [heq] at h
      simp at h
  constructor
  · exact hs
  · intro c hc hcen
    have := scan_foldl_dominates sim emb cs (none, -1) c hc hcen
    rw [h] at this
    simpa [hs] using this

theorem bestClusterScan_some (sim : Vec → Vec → ℚ) (emb : Vec)
    (cs : List Cluster) (bc : Cluster) (s : ℚ)
    (h : bestClusterScan sim emb cs = (some bc, s)) :
    bc ∈ cs ∧ bc.centroid ≠ [] ∧ s = sim emb bc.centroid ∧ (-1 : ℚ) < s ∧
    ∀ c ∈ cs, c.centroid ≠ [] → sim emb c.centroid ≤ s := by
  unfold bestClusterScan at h
  rcases scan_foldl_char sim emb cs (none, -1) with hc | ⟨c, hmem, hcen, heq, hlt⟩
  · rw [hc] at h
    simp at h
  · rw [heq] at h
    have hbc : c = bc ∧ sim emb c.centroid = s := by
      simpa using h
    obtain ⟨rfl, hs⟩ := hbc
    refine ⟨hmem, hcen, hs.symm, ?_, ?_⟩
    · rw [← hs]
      simpa using hlt
    · intro c' hc' hcen'
      have := scan_foldl_dominates sim emb cs (none, -1) c' hc' hcen'
      rw [heq] at this
      simpa [hs] using this

theorem assign_no_embedding (sim : Vec → Vec → ℚ) (now : Nat) (doc : Document)
    (thr : ℚ) (db : DB) (h : doc.embedding = []) :
    assign_document_to_cluster sim now doc thr db = (none, db) := by
  unfold assign_document_to_cluster
  rw [if_pos h]

theorem assign_join (sim : Vec → Vec → ℚ) (now : Nat) (doc : Document)
    (thr : ℚ) (db : DB) (bc : Cluster) (s : ℚ)
    (hemb : doc.embedding ≠ [])
    (hscan : bestClusterScan sim doc.embedding (workspaceClusters db doc.workspace)
      = (some bc, s))
    (hthr : thr ≤ s) :
    assign_document_to_cluster sim now doc thr db =
      (some (joinedClusterRow now doc bc db),
       { db with
         memberships := membershipGetOrCreate doc.id bc.id now db.memberships
         clusters := db.clusters.map (fun c =>
           if c.id == bc.id then joinedClusterRow now doc bc db else c) }) := by
  unfold assign_document_to_cluster
  rw [if_neg hemb, hscan]
  dsimp only
  rw [if_pos hthr]

theorem assign_create_of_none (sim : Vec → Vec → ℚ) (now : Nat) (doc : Document)
    (thr : ℚ) (db : DB) (s : ℚ)
    (hemb : doc.embedding ≠ [])
    (hscan : bestClusterScan sim doc.embedding (workspaceClusters db doc.workspace)
      = (none, s)) :
    assign_document_to_cluster sim now doc thr db =
      (some (newClusterRow now doc db),
       { db with
         clusters := db.clusters ++ [newClusterRow now doc db]
         nextClusterId := db.nextClusterId + 1
         memberships := db.memberships ++ [⟨doc.id, db.nextClusterId, now⟩] }) := by
  unfold assign_document_to_cluster
  rw [if_neg hemb, hscan]
  rfl

theorem assign_create_of_below (sim : Vec → Vec → ℚ) (now : Nat) (doc : Document)
    (thr : ℚ) (db : DB) (bc : Cluster) (s : ℚ)
    (hemb : doc.embedding ≠ [])
    (hscan : bestClusterScan sim doc.embedding (workspaceClusters db doc.workspace)
      = (some bc, s))
    (hthr : ¬ thr ≤ s) :
    assign_document_to_cluster sim now doc thr db =
      (some (newClusterRow now doc db),
       { db with
         clusters := db.clusters ++ [newClusterRow now doc db]
         nextClusterId := db.nextClusterId + 1
         memberships := db.memberships ++ [⟨doc.id, db.nextClusterId, now⟩] }) := by
  unfold assign_document_to_cluster
  rw [if_neg hemb, hscan]
  dsimp only
  rw [if_neg hthr]
  rfl

/-- The C2 counterexample state: one document with embedding `[1]`, one
cluster with centroid `[-1]`.  `cosine_similarity([1.0], [-1.0])` is
exactly `-1.0`, which is what `c2Sim` returns. -/
def c2Doc : Document := { id := 1, workspace := 1, embedding := [1] }

def c2Cluster : Cluster := { id := 1, workspace := 1, centroid := [-1], size := 1 }

def c2DB : DB :=
  { documents := [c2Doc], clusters := [c2Cluster], memberships := [⟨1, 1, 0⟩],
    nextDocumentId := 2, nextClusterId := 2 }

def c2Sim : Vec → Vec → ℚ := fun _ _ => -1

/-- C2 counterexample: with threshold `-1`, the maximum cosine similarity
(`-1`, attained against the sole cluster) satisfies `max ≥ threshold`, yet
`assign_document_to_cluster` creates a second cluster instead of joining:
the scan seeds `best_similarity` with the sentinel `-1.0` and replaces it
only on strict improvement, so a genuine similarity of exactly `-1` never
selects a cluster. -/
theorem assign_at_threshold_minus_one_creates_new :
    ((-1 : ℚ) ≤ c2Sim c2Doc.embedding c2Cluster.centroid) ∧
    (assign_document_to_cluster c2Sim 5 c2Doc (-1) c2DB).2.clusters.length = 2 ∧
    ((assign_document_to_cluster c2Sim 5 c2Doc (-1) c2DB).1.map
      (fun c => c.id)) = some 2 := by
  decide

/-- C2 (amended): for a document with a non-empty embedding,
`assign_document_to_cluster` scans the workspace's clusters with non-empty
centroids; if some cluster's similarity is both ≥ threshold and > -1 (the
scan's sentinel initial value), it joins a cluster attaining the maximum
similarity — membership added idempotently via `get_or_create`, size
recomputed as the live membership count, no cluster created; otherwise
(in particular whenever every similarity is below the threshold) it
creates a new cluster whose centroid equals the document's embedding, with
size 1 and a single membership; a document with no embedding is skipped
and nothing is assigned.  Stated for every similarity function `sim`,
hence for the cosine. -/
theorem assign_document_to_cluster_spec (sim : Vec → Vec → ℚ) (now : Nat)
    (doc : Document) (thr : ℚ) (db : DB) :
    (doc.embedding = [] →
      assign_document_to_cluster sim now doc thr db = (none, db)) ∧
    (doc.embedding ≠ [] →
      ((∃ c ∈ workspaceClusters db doc.workspace,
          thr ≤ sim doc.embedding c.centroid ∧
          (-1 : ℚ) < sim doc.embedding c.centroid) →
        ∃ bc ∈ workspaceClusters db doc.workspace,
          thr ≤ sim doc.embedding bc.centroid ∧
          (∀ c ∈ workspaceClusters db doc.workspace,
            sim doc.embedding c.centroid ≤ sim doc.embedding bc.centroid) ∧
          assign_document_to_cluster sim now doc thr db =
            (some (joinedClusterRow now doc bc db),
             { db with
               memberships := membershipGetOrCreate doc.id bc.id now db.memberships
               clusters := db.clusters.map (fun c =>
                 if c.id == bc.id then joinedClusterRow now doc bc db else c) })) ∧
      ((∀ c ∈ workspaceClusters db doc.workspace,
          sim doc.embedding c.centroid < thr ∨
          sim doc.embedding c.centroid ≤ -1) →
        assign_document_to_cluster sim now doc thr db =
          (some (newClusterRow now doc db),
           { db with
             clusters := db.clusters ++ [newClusterRow now doc db]
             nextClusterId := db.nextClusterId + 1
             memberships := db.memberships ++ [⟨doc.id, db.nextClusterId, now⟩] }))) := by
  refine ⟨fun h => assign_no_embedding sim now doc thr db h, fun hemb => ⟨?_, ?_⟩⟩
  · rintro ⟨c, hc, hthr, hgt⟩
    have hcen := (mem_workspaceClusters db doc.workspace c hc).2.2
    rcases hscan : bestClusterScan sim doc.embedding
        (workspaceClusters db doc.workspace) with ⟨ob, s⟩
    cases ob with
    | none =>
        exfalso
        have := (bestClusterScan_none sim doc.embedding _ s hscan).2 c hc hcen
        exact absurd hgt (not_lt.mpr this)
    | some bc =>
        obtain ⟨hmem, _, hs, _, hdom⟩ :=
          bestClusterScan_some sim doc.embedding _ bc s hscan
        have hbcthr : thr ≤ s := le_trans hthr (hs ▸ hdom c hc hcen)
        refine ⟨bc, hmem, hs ▸ hbcthr, ?_, ?_⟩
        · intro c' hc'
          have hcen' := (mem_workspaceClusters db doc.workspace c' hc').2.2
          exact hs ▸ hdom c' hc' hcen'
        · exact assign_join sim now doc thr db bc s hemb hscan hbcthr
  · intro hall
    rcases hscan : bestClusterScan sim doc.embedding
        (workspaceClusters db doc.workspace) with ⟨ob, s⟩
    cases ob with
    | none => exact assign_create_of_none sim now doc thr db s hemb hscan
    | some bc =>
        obtain ⟨hmem, _, hs, hneg, _⟩ :=
          bestClusterScan_some sim doc.embedding _ bc s hscan
        rcases hall bc hmem with hlt | hle
        · exact assign_create_of_below sim now doc thr db bc s hemb hscan
            (by rw [hs]; exact not_le.mpr hlt)
        · exfalso
          rw [hs] at hneg
          exact absurd hneg (not_lt.mpr hle)

/-- Document of the C2 witness. -/
def w2Doc : Document := { id := 1, workspace := 1, embedding := [1] }

/-- C2 witness: in a workspace with no clusters, the document founds a new
cluster seeded with its embedding, size 1. -/
theorem assign_document_to_cluster_spec_w :
    (assign_document_to_cluster (fun _ _ => 1) 3 w2Doc (7/10) {}).1 =
      some { id := 1, workspace := 1, centroid := [1], size := 1, updated_at := 3 } := by
  have h := ((assign_document_to_cluster_spec (fun _ _ => 1) 3 w2Doc (7/10) {}).2
    (by decide)).2 (by intro c hc; simp [workspaceClusters] at hc)
  rw [h]
  rfl

theorem reconcileStep_some (db : DB) (cl : Cluster) (v : Vec)
    (hv : compute_cluster_centroid db cl = some v) :
    reconcileStep db cl =
      { db with clusters := db.clusters.map (fun c =>
          if c.id == cl.id then
            { c with
              centroid := v
              size := (db.memberships.filter (fun m => m.cluster == cl.id)).length }
          else c) } := by
  unfold reconcileStep
  rw [hv]

/-- C10: when `assign_document_to_cluster` joins an existing cluster, the
returned cluster carries the stored centroid unchanged, and every stored
cluster row keeps its `centroid` and `previous_centroid` — only `size` and
`updated_at` may differ; the stored centroid reflects the new member only
once a reconcile pass recomputes it: each `reconcile_cluster_centroids`
step overwrites the row's centroid with `compute_cluster_centroid`, the
mean over its current memberships. -/
theorem assign_join_centroid_frame (sim : Vec → Vec → ℚ) (now : Nat)
    (doc : Document) (thr : ℚ) (db : DB) (bc : Cluster) (s : ℚ)
    (hemb : doc.embedding ≠ [])
    (hscan : bestClusterScan sim doc.embedding (workspaceClusters db doc.workspace)
      = (some bc, s))
    (hthr : thr ≤ s) :
    ((assign_document_to_cluster sim now doc thr db).1.map Cluster.centroid =
      some bc.centroid) ∧
    (∀ c' ∈ (assign_document_to_cluster sim now doc thr db).2.clusters,
      ∃ c ∈ db.clusters, c' = { c with size := c'.size, updated_at := c'.updated_at }) ∧
    (∀ (db' : DB) (cl : Cluster) (v : Vec),
      compute_cluster_centroid db' cl = some v →
      ∀ c' ∈ (reconcileStep db' cl).clusters, c'.id = cl.id → c'.centroid = v) := by
  have hj := assign_join sim now doc thr db bc s hemb hscan hthr
  have hbcmem := (mem_workspaceClusters db doc.workspace bc
    (bestClusterScan_some sim doc.embedding _ bc s hscan).1).1
  refine ⟨by rw [hj]; rfl, ?_, ?_⟩
  · rw [hj]
    intro c' hc'
    dsimp only at hc'
    rcases List.mem_map.mp hc' with ⟨c, hcmem, hce⟩
    by_cases hid : (c.id == bc.id) = true
    · rw [if_pos hid] at hce
      exact ⟨bc, hbcmem, by rw [← hce]; rfl⟩
    · rw [if_neg (by simpa using hid)] at hce
      exact ⟨c, hcmem, by rw [← hce]⟩
  · intro db' cl v hv c' hc' hid
    rw [reconcileStep_some db' cl v hv] at hc'
    dsimp only at hc'
    rcases List.mem_map.mp hc' with ⟨c, _, hce⟩
    by_cases hcid : (c.id == cl.id) = true
    · rw [if_pos hcid] at hce
      rw [← hce]
    · rw [if_neg (by simpa using hcid)] at hce
      exfalso
      rw [← hce] at hid
      exact absurd hid (by simpa using hcid)

/-- Join scenario of the C10 witness: one cluster with centroid `[2]`. -/
def c10Doc : Document := { id := 2, workspace := 1, embedding := [1] }

def c10Cluster : Cluster := { id := 1, workspace := 1, centroid := [2], size := 1 }

def c10DB : DB :=
  { documents := [c10Doc], clusters := [c10Cluster], nextDocumentId := 3,
    nextClusterId := 2 }

/-- C10 witness: joining leaves the stored centroid `[2]` on the returned
cluster even though the new member's embedding is `[1]`. -/
theorem assign_join_centroid_frame_w :
    (assign_document_to_cluster (fun _ _ => 1) 4 c10Doc (7/10) c10DB).1.map
      Cluster.centroid = some [2] := by
  have h := assign_join_centroid_frame (fun _ _ => 1) 4 c10Doc (7/10) c10DB
    c10Cluster 1 (by decide) (by decide) (by norm_num)
  exact h.1

/-! ## Claims about the workspace core service -/

theorem foldl_pairs_invariant {α : Type} {P : Nat × ℚ → Prop}
    (f : List (Nat × ℚ) → α → List (Nat × ℚ))
    (hf : ∀ m a, (∀ p ∈ m, P p) → ∀ p ∈ f m a, P p)
    (l : List α) (init : List (Nat × ℚ)) (hinit : ∀ p ∈ init, P p) :
    ∀ p ∈ l.foldl f init, P p := by
  induction l generalizing init with
  | nil => exact hinit
  | cons a l ih => exact ih _ (hf init a hinit)

theorem dictInsert_preserves {P : ℚ → Prop} (k : Nat) (v : ℚ)
    (m : List (Nat × ℚ)) (hv : P v) (hm : ∀ p ∈ m, P p.2) :
    ∀ p ∈ dictInsert k v m, P p.2 := by
  intro p hp
  unfold dictInsert at hp
  split at hp
  · rcases List.mem_map.mp hp with ⟨p', hp', he⟩
    by_cases h : (p'.1 == k) = true
    · rw [if_pos h] at he
      rw [← he]
      exact hv
    · rw [if_neg h] at he
      rw [← he]
      exact hm p' hp'
  · rcases List.mem_append.mp hp with h | h
    · exact hm p h
    · simp only [List.mem_singleton] at h
      rw [h]
      exact hv

/-- Every weight `update_workspace_core_centroid` computes is `1.0` (an
up-vote or a seed) or `-0.5` (a down-vote). -/
theorem documentWeights_values (ws : Nat) (db : DB) :
    ∀ p ∈ documentWeights ws db, p.2 = 1 ∨ p.2 = -(1/2) := by
  unfold documentWeights
  apply foldl_pairs_invariant
  · intro m s hm p hp
    split at hp
    · exact hm p hp
    · rcases List.mem_append.mp hp with h | h
      · exact hm p h
      · simp only [List.mem_singleton] at h
        rw [h]
        exact Or.inl rfl
  · apply foldl_pairs_invariant
    · intro m f hm
      exact dictInsert_preserves (P := fun w => w = 1 ∨ w = -(1/2)) _ _ _
        (by split
            · exact Or.inl rfl
            · exact Or.inr rfl)
        hm
    · intro p hp
      simp at hp

theorem weightedEmbeddings_values (ws : Nat) (db : DB) :
    ∀ q ∈ weightedEmbeddings ws db, q.2 = 1 ∨ q.2 = -(1/2) := by
  intro q hq
  unfold weightedEmbeddings at hq
  rcases List.mem_filterMap.mp hq with ⟨p, hp, he⟩
  have hP := documentWeights_values ws db p hp
  rcases hfind : db.documents.find? (fun d => d.id == p.1) with _ | d
  · rw [hfind] at he
    simp at he
  · rw [hfind] at he
    simp only [Option.some_bind] at he
    split at he
    · simp at he
    · simp only [Option.some.injEq] at he
      rw [← he]
      exact hP

theorem weighted_total_pos (ws : Nat) (db : DB)
    (h : weightedEmbeddings ws db ≠ []) :
    0 < (((weightedEmbeddings ws db).map (fun p => p.2)).map (fun w => |w|)).sum := by
  rcases hwe : weightedEmbeddings ws db with _ | ⟨q, rest⟩
  · exact absurd hwe h
  · have hq : q.2 = 1 ∨ q.2 = -(1/2) :=
      weightedEmbeddings_values ws db q (by rw [hwe]; exact List.mem_cons_self q rest)
    have habs : (0:ℚ) < |q.2| := by
      rcases hq with h' | h' <;> rw [h'] <;> norm_num
    have hrest : 0 ≤ ((rest.map (fun p => p.2)).map (fun w => |w|)).sum := by
      apply List.sum_nonneg
      intro x hx
      rcases List.mem_map.mp hx with ⟨p, _, he⟩
      rw [← he]
      exact abs_nonneg _
    simp only [List.map_cons, List.sum_cons]
    linarith

theorem update_core_empty (now : Nat) (ws : Workspace) (db : DB)
    (h : weightedEmbeddings ws.id db = []) :
    update_workspace_core_centroid now ws db = (none, ws) := by
  unfold update_workspace_core_centroid
  rw [h]

theorem update_core_single (now : Nat) (ws : Workspace) (db : DB) (vec : Vec) (w : ℚ)
    (h : weightedEmbeddings ws.id db = [(vec, w)]) :
    update_workspace_core_centroid now ws db =
      (if w < 0 then (none, ws) else (some vec, ws)) := by
  unfold update_workspace_core_centroid
  rw [h]

/-- The normalised weighted centroid of the multi-embedding branch. -/
def multiCentroid (we : List (Vec × ℚ)) : Vec :=
  vecSum (we.map (fun p =>
    vecScale (p.2 / (((we.map (fun p => p.2)).map (fun w => |w|)).sum)) p.1))

theorem update_core_multi (now : Nat) (ws : Workspace) (db : DB)
    (v1 v2 : Vec × ℚ) (rest : List (Vec × ℚ))
    (h : weightedEmbeddings ws.id db = v1 :: v2 :: rest) :
    update_workspace_core_centroid now ws db =
      (if (((v1 :: v2 :: rest).map (fun p => p.2)).map (fun w => |w|)).sum = 0
       then (none, ws)
       else
         (some (multiCentroid (v1 :: v2 :: rest)),
          { ws with
            core_centroid := some (multiCentroid (v1 :: v2 :: rest), now) })) := by
  unfold update_workspace_core_centroid
  rw [h]
  rfl

/-- C3 (amended): `update_workspace_core_centroid` returns `None` exactly
when no valid weighted embeddings exist or the single weighted embedding
present has negative net weight (a lone downvote); when two or more
weighted embeddings exist it persists the returned vector plus the update
timestamp onto `core_centroid` before returning; but in the
single-positive-embedding case it returns the embedding WITHOUT touching
the workspace (the early return at core.py lines 144-150 precedes the
persistence code at lines 169-171). -/
theorem update_workspace_core_centroid_spec (now : Nat) (ws : Workspace) (db : DB) :
    ((update_workspace_core_centroid now ws db).1 = none ↔
      weightedEmbeddings ws.id db = [] ∨
      ∃ v w, weightedEmbeddings ws.id db = [(v, w)] ∧ w < 0) ∧
    (∀ v w, weightedEmbeddings ws.id db = [(v, w)] → ¬ w < 0 →
      update_workspace_core_centroid now ws db = (some v, ws)) ∧
    (∀ v, 2 ≤ (weightedEmbeddings ws.id db).length →
      (update_workspace_core_centroid now ws db).1 = some v →
      (update_workspace_core_centroid now ws db).2.core_centroid = some (v, now)) := by
  rcases hwe : weightedEmbeddings ws.id db with _ | ⟨⟨v1, w1⟩, _ | ⟨⟨v2, w2⟩, rest⟩⟩
  · rw [update_core_empty now ws db hwe]
    refine ⟨by simp, ?_, ?_⟩
    · intro v w hvw
      simp at hvw
    · intro v hlen
      simp at hlen
  · rw [update_core_single now ws db v1 w1 hwe]
    by_cases hw : w1 < 0
    · rw [if_pos hw]
      refine ⟨?_, ?_, ?_⟩
      · simp only [true_iff]
        exact Or.inr ⟨v1, w1, rfl, hw⟩
      · intro v w hvw hnw
        simp only [List.cons.injEq, Prod.mk.injEq, and_true] at hvw
        exact absurd (hvw.2 ▸ hw) hnw
      · intro v hlen
        simp at hlen
    · rw [if_neg hw]
      refine ⟨?_, ?_, ?_⟩
      · constructor
        · intro h
          simp at h
        · rintro (h | ⟨v, w, hvw, hneg⟩)
          · simp at h
          · simp only [List.cons.injEq, Prod.mk.injEq, and_true] at hvw
            exact absurd (hvw.2 ▸ hneg) hw
      · intro v w hvw _
        simp only [List.cons.injEq, Prod.mk.injEq, and_true] at hvw
        rw [hvw.1]
      · intro v hlen
        simp at hlen
  · have hmulti := update_core_multi now ws db (v1, w1) (v2, w2) rest hwe
    have hpos := weighted_total_pos ws.id db (by rw [hwe]; simp)
    rw [hwe] at hpos
    rw [hmulti, if_neg (ne_of_gt hpos)]
    refine ⟨by simp, ?_, ?_⟩
    · intro v w hvw _
      simp at hvw
    · intro v _ hv
      simp only [Option.some.injEq] at hv
      rw [hv]

/-- State for the C3 counterexample: one document with embedding `[1]` and
a single up-vote on it. -/
def c3Doc : Document := { id := 1, workspace := 1, embedding := [1] }

def c3DB : DB :=
  { documents := [c3Doc], coreFeedback := [⟨1, 1, "up", 0⟩], nextDocumentId := 2 }

def c3WS : Workspace := { id := 1 }

/-- C3 counterexample: with a single up-voted embedded document the call
returns the vector `[1]` but does not persist anything: the workspace's
`core_centroid` is still unset afterwards, contradicting "in every case
where it returns a non-None vector, it has persisted that vector". -/
theorem update_single_embedding_not_persisted :
    (update_workspace_core_centroid 5 c3WS c3DB).1 = some [1] ∧
    (update_workspace_core_centroid 5 c3WS c3DB).2.core_centroid = none := by
  decide

/-- State for the C3 witness: one seeded document. -/
def w3Doc : Document := { id := 4, workspace := 2, embedding := [3, 4] }

def w3DB : DB :=
  { documents := [w3Doc], coreSeeds := [⟨2, 4⟩], nextDocumentId := 5 }

def w3WS : Workspace := { id := 2 }

/-- C3 witness: the single-positive-embedding case returns the embedding
and leaves the workspace untouched. -/
theorem update_workspace_core_centroid_spec_w :
    update_workspace_core_centroid 9 w3WS w3DB = (some [3, 4], w3WS) := by
  exact (update_workspace_core_centroid_spec 9 w3WS w3DB).2.1 [3, 4] 1
    (by decide) (by norm_num)

/-- C8 (amended): `add_core_feedback` validates the vote and the embedding
and appends exactly one feedback row — but then itself calls
`update_workspace_core_centroid` (core.py line 213), so the workspace it
returns is whatever that recomputation leaves: `core_centroid` is NOT left
unchanged in general (it is rewritten whenever the recomputation reaches
the multi-embedding persist path). -/
theorem add_core_feedback_spec (now : Nat) (ws : Workspace) (doc : Document)
    (vote : String) (db : DB)
    (hv : vote = "up" ∨ vote = "down") (he : doc.embedding ≠ []) :
    add_core_feedback now ws doc vote db =
      .ok (⟨ws.id, doc.id, vote, now⟩,
        (update_workspace_core_centroid now ws
          { db with coreFeedback := db.coreFeedback ++ [⟨ws.id, doc.id, vote, now⟩] }).2,
        { db with coreFeedback := db.coreFeedback ++ [⟨ws.id, doc.id, vote, now⟩] }) := by
  have hv' : (vote == "up" || vote == "down") = true := by
    rcases hv with h | h <;> simp [h]
  unfold add_core_feedback
  rw [if_neg (by simp [hv']), if_neg he]

/-- State for the C8 counterexample: two embedded documents, one already
up-voted; core_centroid initially unset. -/
def c8Doc1 : Document := { id := 1, workspace := 1, embedding := [4, 0] }

def c8Doc2 : Document := { id := 2, workspace := 1, embedding := [0, 4] }

def c8DB : DB :=
  { documents := [c8Doc1, c8Doc2], coreFeedback := [⟨1, 1, "up", 0⟩],
    nextDocumentId := 3 }

def c8WS : Workspace := { id := 1 }

/-- C8 counterexample: `add_core_feedback` itself rewrites the workspace's
`core_centroid` (from unset to `([2, 2], 7)`), contradicting "the
workspace's core_centroid field is left unchanged by add_core_feedback
itself". -/
theorem add_core_feedback_changes_core_centroid :
    c8WS.core_centroid = none ∧
    (add_core_feedback 7 c8WS c8Doc2 "up" c8DB).toOption.map
      (fun r => r.2.1.core_centroid) = some (some ([2, 2], 7)) := by
  refine ⟨rfl, ?_⟩
  rw [add_core_feedback_spec 7 c8WS c8Doc2 "up" c8DB (Or.inl rfl) (by decide)]
  have hwe : weightedEmbeddings c8WS.id
      { c8DB with
        coreFeedback := c8DB.coreFeedback ++ [⟨c8WS.id, c8Doc2.id, "up", 7⟩] }
      = [([4, 0], 1), ([0, 4], 1)] := rfl
  rw [update_core_multi 7 c8WS _ ([4, 0], 1) ([0, 4], 1) [] hwe]
  rw [if_neg (by norm_num)]
  have hc : multiCentroid [(([4, 0] : Vec), (1 : ℚ)), ([0, 4], 1)] = [2, 2] := by
    norm_num [multiCentroid, vecSum, vecScale, vecAdd]
  rw [hc]
  rfl

/-- State for the C8 witness: one embedded document, a "down" vote. -/
def w8Doc : Document := { id := 1, workspace := 3, embedding := [1] }

def w8DB : DB := { documents := [w8Doc], nextDocumentId := 2 }

def w8WS : Workspace := { id := 3 }

/-- C8 witness: the call creates the feedback row and hands the workspace
through the centroid recomputation (here a lone downvote, so unchanged). -/
theorem add_core_feedback_spec_w :
    add_core_feedback 3 w8WS w8Doc "down" w8DB =
      .ok (⟨3, 1, "down", 3⟩, w8WS,
        { w8DB with coreFeedback := [⟨3, 1, "down", 3⟩] }) := by
  rw [add_core_feedback_spec 3 w8WS w8Doc "down" w8DB (Or.inr rfl) (by decide)]
  have hwe : weightedEmbeddings w8WS.id
      { w8DB with
        coreFeedback := w8DB.coreFeedback ++ [⟨w8WS.id, w8Doc.id, "down", 3⟩] }
      = [([1], -(1/2))] := rfl
  rw [update_core_single 3 w8WS _ [1] (-(1/2)) hwe, if_pos (by norm_num)]
  rfl

/-! ## Claims about novelty scoring -/

theorem foldr_max_init (l : List ℚ) : ∀ (x y : ℚ),
    l.foldr max (max x y) = max x (l.foldr max y) := by
  induction l with
  | nil => intro x y; rfl
  | cons z l ih =>
      intro x y
      simp only [List.foldr_cons, ih x y]
      rw [max_left_comm]

theorem if_gt_eq_max (s a : ℚ) : (if s > a then s else a) = max a s := by
  rcases le_or_lt s a with h | h
  · rw [if_neg (not_lt.mpr h), max_eq_left h]
  · rw [if_pos h, max_eq_right (le_of_lt h)]

theorem novelty_fold_eq (sim : Vec → Vec → ℚ) (emb : Vec) (assigned : Option Nat)
    (cs : List Cluster) : ∀ a : ℚ,
    cs.foldl (fun best c =>
        if assigned = some c.id then best
        else if c.centroid = [] then best
        else if sim emb c.centroid > best then sim emb c.centroid else best) a =
      ((cs.filter (fun c => !(assigned == some c.id) && !(c.centroid == []))).map
        (fun c => sim emb c.centroid)).foldr max a := by
  induction cs with
  | nil => intro a; rfl
  | cons c cs ih =>
      intro a
      simp only [List.foldl_cons]
      by_cases h1 : assigned = some c.id
      · rw [if_pos h1]
        have hp : (!(assigned == some c.id) && !(c.centroid == [])) = false := by
          simp [h1]
        simp only [List.filter_cons, hp, Bool.false_eq_true, if_false]
        exact ih a
      · rw [if_neg h1]
        by_cases h2 : c.centroid = []
        · rw [if_pos h2]
          have hp : (!(assigned == some c.id) && !(c.centroid == [])) = false := by
            simp [h2]
          simp only [List.filter_cons, hp, Bool.false_eq_true, if_false]
          exact ih a
        · rw [if_neg h2]
          have hp : (!(assigned == some c.id) && !(c.centroid == [])) = true := by
            simp [h1, h2]
          simp only [List.filter_cons, hp, if_true, List.map_cons, List.foldr_cons]
          rw [if_gt_eq_max, ih (max a (sim emb c.centroid)), max_comm a,
            foldr_max_init]

theorem clamp_foldr_max (S : List ℚ) :
    (if S.foldr max (-1) < 0 then (1:ℚ) else 1 - max 0 (S.foldr max (-1))) =
      1 - S.foldr max 0 := by
  have h0 : S.foldr max 0 = max 0 (S.foldr max (-1)) := by
    have h := foldr_max_init S 0 (-1)
    have : max (0:ℚ) (-1) = 0 := by norm_num
    rw [this] at h
    exact h
  by_cases hm : S.foldr max (-1) < 0
  · rw [if_pos hm, h0, max_eq_left (le_of_lt hm)]
    norm_num
  · rw [if_neg hm, h0]

/-- C9: for a document with a non-empty embedding, `compute_novelty_score`
equals 1 minus the maximum similarity to the centroids of the workspace's
clusters other than the document's own cluster (clusters with empty
centroids excluded by the queryset), the maximum clamped to ≥ 0 before the
subtraction (`foldr max 0`); it is exactly 1 when the workspace has no
clusters with non-empty centroids, and when the only such cluster is the
document's own.  Stated for every similarity function `sim`, hence for the
cosine. -/
theorem compute_novelty_score_spec (sim : Vec → Vec → ℚ) (doc : Document)
    (db : DB) (hemb : doc.embedding ≠ []) :
    (compute_novelty_score sim doc db =
      1 - (((workspaceClusters db doc.workspace).filter (fun c =>
          !(((db.memberships.find? (fun m => m.document == doc.id)).map
            (fun m => m.cluster)) == some c.id))).map
          (fun c => sim doc.embedding c.centroid)).foldr max 0) ∧
    (workspaceClusters db doc.workspace = [] →
      compute_novelty_score sim doc db = 1) ∧
    ((workspaceClusters db doc.workspace).filter (fun c =>
        !(((db.memberships.find? (fun m => m.document == doc.id)).map
          (fun m => m.cluster)) == some c.id)) = [] →
      compute_novelty_score sim doc db = 1) := by
  have hfilter :
      (workspaceClusters db doc.workspace).filter (fun c =>
        !(((db.memberships.find? (fun m => m.document == doc.id)).map
          (fun m => m.cluster)) == some c.id) && !(c.centroid == [])) =
      (workspaceClusters db doc.workspace).filter (fun c =>
        !(((db.memberships.find? (fun m => m.document == doc.id)).map
          (fun m => m.cluster)) == some c.id)) := by
    apply List.filter_congr
    intro c hc
    have hcen := (mem_workspaceClusters db doc.workspace c hc).2.2
    simp [hcen]
  have hmain : compute_novelty_score sim doc db =
      1 - (((workspaceClusters db doc.workspace).filter (fun c =>
          !(((db.memberships.find? (fun m => m.document == doc.id)).map
            (fun m => m.cluster)) == some c.id))).map
          (fun c => sim doc.embedding c.centroid)).foldr max 0 := by
    unfold compute_novelty_score
    rw [if_neg hemb]
    by_cases hcl : workspaceClusters db doc.workspace = []
    · rw [if_pos hcl, hcl]
      simp
    · rw [if_neg hcl]
      simp only
      rw [novelty_fold_eq, hfilter, clamp_foldr_max]
  refine ⟨hmain, ?_, ?_⟩
  · intro hcl
    rw [hmain, hcl]
    simp
  · intro hother
    rw [hmain, hother]
    simp

/-- State for the C9 witness: the document sits in cluster 1; cluster 2 is
the only other cluster.  `simW` gives the own cluster similarity 9/10 and
the other cluster 1/4. -/
def c9Doc : Document := { id := 1, workspace := 1, embedding := [1] }

def c9OwnCluster : Cluster := { id := 1, workspace := 1, centroid := [5], size := 1 }

def c9OtherCluster : Cluster := { id := 2, workspace := 1, centroid := [7], size := 1 }

def c9DB : DB :=
  { documents := [c9Doc], clusters := [c9OwnCluster, c9OtherCluster],
    memberships := [⟨1, 1, 0⟩], nextDocumentId := 2, nextClusterId := 3 }

def simW : Vec → Vec → ℚ := fun _ b => if b = [7] then 1/4 else 9/10

/-- C9 witness: the own cluster (similarity 9/10) is excluded; novelty is
`1 - 1/4`. -/
theorem compute_novelty_score_spec_w :
    compute_novelty_score simW c9Doc c9DB = 3/4 := by
  have h := (compute_novelty_score_spec simW c9Doc c9DB (by decide)).1
  rw [h]
  norm_num [c9DB, c9Doc, c9OwnCluster, c9OtherCluster, simW, workspaceClusters,
    List.filter_cons, List.find?_cons, max_def]

/-! ## Claims about the provider SSRF gate -/

theorem mem_extract_article_requests (u l : String)
    (h : u ∈ extract_article_requests l) : is_url_allowed u = true := by
  unfold extract_article_requests at h
  by_cases ha : is_url_allowed l = true
  · rw [if_pos ha] at h
    simp only [List.mem_singleton] at h
    rw [h]
    exact ha
  · rw [if_neg ha] at h
    simp at h

/-- C6 counterexample: `RSSProvider.fetch` issues its HTTP GET for the
configured feed URL without consulting `_is_url_allowed`: a feed URL whose
host is the loopback literal `127.0.0.1` is requested, even though the
gate itself classifies that URL as denied. -/
theorem rss_fetch_requests_loopback_feed :
    urlHostForbiddenIPv4 "http://127.0.0.1/feed" = true ∧
    is_url_allowed "http://127.0.0.1/feed" = false ∧
    "http://127.0.0.1/feed" ∈
      rss_fetch_requests "http://127.0.0.1/feed" true false 50 [] := by
  refine ⟨by decide, by decide, by decide⟩

/-- C6 (amended): article extraction is SSRF-gated before any network
call — `extract_article_content` never issues a request for a URL that
`_is_url_allowed` denies, so every URL an RSS fetch requests other than
the configured feed endpoint passed the gate — and the gate rejects
loopback, private and link-local literals, IPv6 literals, and disguised
IP octets embedded in hostnames.  The provider's own request for the
configured feed/API URL, however, is issued with no gate check (see the
counterexample). -/
theorem rss_article_requests_gated (cfgUrl : String) (ffa ebl : Bool)
    (mx : Nat) (entries : List RSSEntry) :
    (∀ u, is_url_allowed u = false → extract_article_requests u = []) ∧
    (∀ u ∈ rss_fetch_requests cfgUrl ffa ebl mx entries,
      u ≠ cfgUrl → is_url_allowed u = true) ∧
    is_url_allowed "http://127.0.0.1" = false ∧
    is_url_allowed "http://10.0.0.1" = false ∧
    is_url_allowed "http://192.168.1.1" = false ∧
    is_url_allowed "http://169.254.0.1" = false ∧
    is_url_allowed "http://[::1]" = false ∧
    is_url_allowed "http://127.0.0.1.example.com" = false ∧
    is_url_allowed "https://example.com/article" = true := by
  refine ⟨?_, ?_, by decide, by decide, by decide, by decide, by decide,
    by decide, by decide⟩
  · intro u hu
    unfold extract_article_requests
    rw [if_neg (by simp [hu])]
  · intro u hu hne
    unfold rss_fetch_requests at hu
    by_cases hc : (cfgUrl == "") = true
    · rw [if_pos hc] at hu
      simp at hu
    · rw [if_neg hc] at hu
      rcases List.mem_cons.mp hu with rfl | hu
      · exact absurd rfl hne
      · rcases List.mem_flatMap.mp hu with ⟨e, _, hue⟩
        by_cases hebl : ebl = true
        · rw [if_pos hebl] at hue
          rcases List.mem_flatMap.mp hue with ⟨l, _, hul⟩
          by_cases hl : (ffa && l != "") = true
          · rw [if_pos hl] at hul
            exact mem_extract_article_requests u l hul
          · rw [if_neg hl] at hul
            simp at hul
        · rw [if_neg hebl] at hue
          by_cases hl : (ffa && e.link != "") = true
          · rw [if_pos hl] at hue
            exact mem_extract_article_requests u e.link hue
          · rw [if_neg hl] at hue
            simp at hue

/-- Entries for the C6 witness. -/
def w6Entries : List RSSEntry := [{ link := "https://example.com/a" }]

/-- C6 witness: the article URL requested during a concrete fetch run
passed the gate. -/
theorem rss_article_requests_gated_w :
    is_url_allowed "https://example.com/a" = true := by
  exact (rss_article_requests_gated "https://feeds.example.com/rss" true false 50
    w6Entries).2.1 "https://example.com/a" (by decide) (by decide)

end Canopy
